import Mathlib

/-!
`Util/Logging.cpp` of OG-Language: the one-time initialisation of the logging backend.

The file embeds the two functions of `Logging.cpp`, `LoggingInitImpl` and `LoggingInit`.

* The function-local `static bool bInitialised` is the explicit `State`.
* Every statement with an effect outside the function's locals appends one `Effect` to an
  ordered trace: the write of the flag, the two `configure` calls of the backend, the change of
  the root logger's level, and the `LOGWARN` / `LOGINFO` statements.
* The backend is a parameter: a `Backend` says which of its operations raise a C++ exception.
  `LoggingInitImpl` has no `try`, so a raised exception leaves the function at once.
* `LoggingInitImpl` is given twice: as a whole call (`LoggingInitImpl`) and as a machine that
  executes one statement at a time (`step`), used to interleave two callers.  The lemma
  `runThread_eq_call` shows that the two agree.
-/

namespace Logging

/-! ## Data -/

/-- A `const TCHAR *`: `none` is the NULL pointer, `some s` points to the characters `s`. -/
abbrev TStr := Option String

/-- The severities the source names: `Level::getError ()`, `LOGWARN` and `LOGINFO`. -/
inductive Level where
  | ERROR
  | WARN
  | INFO
deriving DecidableEq, Repr

/-- One operand of a `<<` chain handed to `LOGWARN` or `LOGINFO`. -/
inductive Operand where
  /-- A `TEXT ("...")` literal. -/
  | text (s : String)
  /-- A `const TCHAR *` variable, possibly NULL. -/
  | tstr (p : TStr)
deriving DecidableEq, Repr

/-- The effects of `LoggingInitImpl`, one per statement of the source. -/
inductive Effect where
  /-- Line 25, `bInitialised = true`. -/
  | writeFlag (b : Bool)
  /-- Line 28, `PropertyConfigurator::configure (pszLogConfiguration)`. -/
  | propertyConfigure (path : String)
  /-- Line 31, `BasicConfigurator::configure ()`. -/
  | basicConfigure
  /-- Lines 33 and 34, `Logger::getRootLogger ()->setLevel (level)`. -/
  | rootSetLevel (level : Level)
  /-- Line 22, a `LOGWARN` statement with the operands of its `<<` chain.  The effect records
  the statement; whether the backend's threshold lets the message through is up to the backend. -/
  | logWarn (msg : List Operand)
  /-- Lines 29 and 36, a `LOGINFO` statement with the operands of its `<<` chain. -/
  | logInfo (msg : List Operand)
deriving DecidableEq, Repr

/-- The process-wide state of the component: the `static bool bInitialised` of line 20. -/
structure State where
  bInitialised : Bool
deriving DecidableEq, Repr

/-- The state at process start: `static bool bInitialised = false`. -/
def State.initial : State := ⟨false⟩

/-- The logging backend, as far as control flow depends on it: `B e = true` when the backend
operation `e` raises an exception instead of returning. -/
abbrev Backend := Effect → Bool

/-- The backend all of whose operations return. -/
def Backend.returning : Backend := fun _ => false

/-- What a piece of code has done when control leaves it: the state it leaves, the effects it
issued in order, and its value; `value = none` means that an exception is propagating. -/
structure Run (α : Type) where
  state : State
  trace : List Effect
  value : Option α
deriving DecidableEq, Repr

/-- A piece of code running against a backend from a state. -/
def Prog (α : Type) : Type := Backend → State → Run α

/-- Code that does nothing and yields `a`. -/
def Prog.pure {α : Type} (a : α) : Prog α := fun _ st => ⟨st, [], some a⟩

/-- Sequencing, `m; f`: when `m` raises, `f` is skipped and the exception propagates. -/
def Prog.bind {α β : Type} (m : Prog α) (f : α → Prog β) : Prog β := fun B st =>
  let r := m B st
  match r.value with
  | none => ⟨r.state, r.trace, none⟩
  | some a =>
    let r2 := f a B r.state
    ⟨r2.state, r.trace ++ r2.trace, r2.value⟩

instance : Monad Prog where
  pure := Prog.pure
  bind := Prog.bind

/-- Reading `bInitialised`. -/
def readInitialised : Prog Bool := fun _ st => ⟨st, [], some st.bInitialised⟩

/-- The assignment `bInitialised = b`. -/
def writeInitialised (b : Bool) : Prog Unit := fun _ _ => ⟨⟨b⟩, [Effect.writeFlag b], some ()⟩

/-- A call of the backend operation `e`: it is recorded, and it returns or raises as the
backend decides. -/
def call (e : Effect) : Prog Unit := fun B st =>
  ⟨st, [e], if B e then none else some ()⟩

/-- The operands of the `LOGWARN` of line 22. -/
def duplicateMessage (pszLogConfiguration : TStr) : List Operand :=
  [Operand.text "Logging already initialised, duplicate call with ",
   Operand.tstr pszLogConfiguration]

/-- The operands of the `LOGINFO` of line 29. -/
def fromPathMessage (pszLogConfiguration : TStr) : List Operand :=
  [Operand.text "Logging initialised from ", Operand.tstr pszLogConfiguration]

/-- The operands of the `LOGINFO` of line 36. -/
def defaultMessage : List Operand :=
  [Operand.text "Logging initialised with default settings"]

/-! ## The two functions of `Logging.cpp` -/

/-- The function `LoggingInitImpl` (lines 19 to 38).  `debug` says whether `_DEBUG` is defined:
lines 33 and 34 are compiled only when it is not. -/
def LoggingInitImpl (debug : Bool) (pszLogConfiguration : TStr) : Prog Unit := do
  if (← readInitialised) then
    call (Effect.logWarn (duplicateMessage pszLogConfiguration))
    return
  else
    writeInitialised true
  match pszLogConfiguration with
  | some path =>
    call (Effect.propertyConfigure path)
    call (Effect.logInfo (fromPathMessage pszLogConfiguration))
  | none =>
    call Effect.basicConfigure
    if !debug then
      call (Effect.rootSetLevel Level.ERROR)
    call (Effect.logInfo defaultMessage)

/-- Modelled from the spec: the class `CAbstractSettings` is declared outside the sources.
The spec (section 6) describes the settings provider as an object exposing a single accessor
that returns an optional configuration path string. -/
structure CAbstractSettings where
  GetLogConfiguration : TStr
deriving DecidableEq, Repr

/-- The function `LoggingInit` (lines 44 to 46); `poSettings = none` is the NULL pointer. -/
def LoggingInit (debug : Bool) (poSettings : Option CAbstractSettings) : Prog Unit :=
  LoggingInitImpl debug
    (match poSettings with
     | some settings => settings.GetLogConfiguration
     | none => none)

/-- The path that the spec lets entry point B hand to entry point A: the accessor's result
when a settings object is provided, absent when none is provided. -/
def specAdaptedPath : Option CAbstractSettings → TStr
  | some settings => settings.GetLogConfiguration
  | none => none

/-- A sequence of calls of `LoggingInitImpl`, one after the other, each from the state the
previous one left (also when the previous one raised and its caller went on).  The result is
the final state and the trace of every call, in order. -/
def runCalls (debug : Bool) (B : Backend) : State → List TStr → State × List (List Effect)
  | st, [] => (st, [])
  | st, a :: rest =>
    let r := LoggingInitImpl debug a B st
    let rs := runCalls debug B r.state rest
    (rs.1, r.trace :: rs.2)

/-! ## Reading traces -/

/-- The two operations that configure the backend. -/
def Effect.isConfigure : Effect → Bool
  | Effect.propertyConfigure _ => true
  | Effect.basicConfigure => true
  | _ => false

/-- The configure operation from a properties file. -/
def Effect.isPropertyConfigure : Effect → Bool
  | Effect.propertyConfigure _ => true
  | _ => false

/-- The default configure operation. -/
def Effect.isBasicConfigure : Effect → Bool
  | Effect.basicConfigure => true
  | _ => false

/-- A change of the root logger's level. -/
def Effect.isRootSetLevel : Effect → Bool
  | Effect.rootSetLevel _ => true
  | _ => false

/-- A warning diagnostic. -/
def Effect.isWarn : Effect → Bool
  | Effect.logWarn _ => true
  | _ => false

/-- An info diagnostic. -/
def Effect.isInfo : Effect → Bool
  | Effect.logInfo _ => true
  | _ => false

/-- A write of the flag. -/
def Effect.isWriteFlag : Effect → Bool
  | Effect.writeFlag _ => true
  | _ => false

/-- An operation of the logging backend: everything but the write of the flag. -/
def Effect.isBackendOp (e : Effect) : Bool := !e.isWriteFlag

/-- The configure operation that an argument of `LoggingInitImpl` selects (line 27). -/
def configureOf : TStr → Effect
  | some path => Effect.propertyConfigure path
  | none => Effect.basicConfigure

/-- Modelled from the spec: the `LOGWARN` and `LOGINFO` statements expand through `Logging.h`
into the backend, neither of which is among the sources; the spec says that the diagnostic
names the path.  The text of one operand: a literal and a non-NULL string contribute their
characters, and `nullText` stands for whatever the backend writes for a NULL pointer. -/
def Operand.render (nullText : String) : Operand → String
  | Operand.text s => s
  | Operand.tstr (some s) => s
  | Operand.tstr none => nullText

/-- The text of a diagnostic: its operands, rendered left to right. -/
def renderMessage (nullText : String) : List Operand → String
  | [] => ""
  | o :: rest => o.render nullText ++ renderMessage nullText rest

/-! ## `LoggingInitImpl`, one statement at a time -/

/-- The places of `LoggingInitImpl` at which control can be. -/
inductive Pc where
  /-- Before line 21, the test of `bInitialised`. -/
  | check
  /-- Before line 22, the `LOGWARN`. -/
  | warn
  /-- Before line 25, `bInitialised = true`. -/
  | setFlag
  /-- Before line 27, the test of the argument and the `configure` it selects. -/
  | configure
  /-- Before lines 33 and 34, the change of the root level. -/
  | setLevel
  /-- Before line 29, the `LOGINFO` naming the path. -/
  | infoPath
  /-- Before line 36, the `LOGINFO` of the default branch. -/
  | infoDefault
  /-- The call has returned. -/
  | returned
  /-- The call was left by an exception. -/
  | raised
deriving DecidableEq, Repr

/-- Where control goes after the backend operation `e`: on to `pc`, or out by an exception. -/
def after (B : Backend) (e : Effect) (pc : Pc) : Pc :=
  if B e then Pc.raised else pc

/-- One statement of `LoggingInitImpl`, executed atomically: the next place, the state and
the effect issued, if any. -/
def step (debug : Bool) (pszLogConfiguration : TStr) (B : Backend) :
    Pc → State → Pc × State × List Effect
  | Pc.check, st => (if st.bInitialised then Pc.warn else Pc.setFlag, st, [])
  | Pc.warn, st =>
    let e := Effect.logWarn (duplicateMessage pszLogConfiguration)
    (after B e Pc.returned, st, [e])
  | Pc.setFlag, _ => (Pc.configure, ⟨true⟩, [Effect.writeFlag true])
  | Pc.configure, st =>
    match pszLogConfiguration with
    | some path =>
      let e := Effect.propertyConfigure path
      (after B e Pc.infoPath, st, [e])
    | none =>
      let e := Effect.basicConfigure
      (after B e (if !debug then Pc.setLevel else Pc.infoDefault), st, [e])
  | Pc.setLevel, st =>
    let e := Effect.rootSetLevel Level.ERROR
    (after B e Pc.infoDefault, st, [e])
  | Pc.infoPath, st =>
    let e := Effect.logInfo (fromPathMessage pszLogConfiguration)
    (after B e Pc.returned, st, [e])
  | Pc.infoDefault, st =>
    let e := Effect.logInfo defaultMessage
    (after B e Pc.returned, st, [e])
  | Pc.returned, st => (Pc.returned, st, [])
  | Pc.raised, st => (Pc.raised, st, [])

/-- A single caller executing `n` statements from place `pc`. -/
def runThread (debug : Bool) (pszLogConfiguration : TStr) (B : Backend) :
    Nat → Pc → State → Pc × State × List Effect
  | 0, pc, st => (pc, st, [])
  | n + 1, pc, st =>
    let r := step debug pszLogConfiguration B pc st
    let rs := runThread debug pszLogConfiguration B n r.1 r.2.1
    (rs.1, rs.2.1, r.2.2 ++ rs.2.2)

/-- The value of a call, read off the place at which control ended. -/
def Pc.value : Pc → Option Unit
  | Pc.returned => some ()
  | _ => none

/-- The two callers of the interleaved runs. -/
inductive Caller where
  | first
  | second
deriving DecidableEq, Repr

/-- Two callers inside `LoggingInitImpl` at once: the shared flag, the place of each caller,
and the effects issued so far, each with the caller that issued it. -/
structure Config where
  shared : State
  pcFirst : Pc
  pcSecond : Pc
  trace : List (Caller × Effect)
deriving DecidableEq, Repr

/-- Both callers about to enter `LoggingInitImpl`, the flag still unset. -/
def Config.start : Config := ⟨State.initial, Pc.check, Pc.check, []⟩

/-- The caller `who` executes its next statement; `a` is the argument of the first caller and
`b` that of the second. -/
def stepCaller (debug : Bool) (B : Backend) (a b : TStr) (who : Caller) (c : Config) : Config :=
  match who with
  | Caller.first =>
    let r := step debug a B c.pcFirst c.shared
    ⟨r.2.1, r.1, c.pcSecond, c.trace ++ r.2.2.map (fun e => (Caller.first, e))⟩
  | Caller.second =>
    let r := step debug b B c.pcSecond c.shared
    ⟨r.2.1, c.pcFirst, r.1, c.trace ++ r.2.2.map (fun e => (Caller.second, e))⟩

/-- An interleaving: the callers take their steps in the order the schedule lists them. -/
def runSchedule (debug : Bool) (B : Backend) (a b : TStr) : List Caller → Config → Config
  | [], c => c
  | who :: rest, c => runSchedule debug B a b rest (stepCaller debug B a b who c)

/-- The schedule of the race: both callers test the flag, then both set it, then each runs
to its end. -/
def raceSchedule : List Caller :=
  [Caller.first, Caller.second, Caller.first, Caller.second,
   Caller.first, Caller.first, Caller.first, Caller.second, Caller.second, Caller.second]

/-- The configure operations of an interleaved trace, each with its caller. -/
def configuresOf (t : List (Caller × Effect)) : List (Caller × Effect) :=
  t.filter (fun x => x.2.isConfigure)

/-- The effects that one caller issued in an interleaved trace. -/
def effectsOf (who : Caller) (t : List (Caller × Effect)) : List Effect :=
  (t.filter (fun x => decide (x.1 = who))).map (fun x => x.2)

/-- The second caller arrived after the flag was written: the flag is set, and the caller is
either still before its warning, having issued nothing, or past it, having issued only it. -/
def SecondLate (b : TStr) (c : Config) : Prop :=
  c.shared.bInitialised = true ∧
  (((c.pcSecond = Pc.check ∨ c.pcSecond = Pc.warn) ∧ effectsOf Caller.second c.trace = [])
   ∨ ((c.pcSecond = Pc.returned ∨ c.pcSecond = Pc.raised)
      ∧ effectsOf Caller.second c.trace = [Effect.logWarn (duplicateMessage b)]))

/-- The first caller has written the flag: it is before its configure operation and has
issued none, or past it and has issued exactly the one its argument selects. -/
def FirstPast (a : TStr) (c : Config) : Prop :=
  (c.pcFirst = Pc.configure
    ∧ (effectsOf Caller.first c.trace).filter Effect.isConfigure = [])
  ∨ ((c.pcFirst = Pc.setLevel ∨ c.pcFirst = Pc.infoPath ∨ c.pcFirst = Pc.infoDefault
        ∨ c.pcFirst = Pc.returned ∨ c.pcFirst = Pc.raised)
    ∧ (effectsOf Caller.first c.trace).filter Effect.isConfigure = [configureOf a])

/-- The schedule of a call that arrives while the first is between its write of the flag and
its configure operation (as a call made from within the configure would): the first caller
tests and writes the flag, the second runs its whole call, the first runs to its end. -/
def nestedSchedule : List Caller :=
  [Caller.first, Caller.first] ++ (List.replicate 2 Caller.second
    ++ List.replicate 3 Caller.first)

/-- The duplicate branch, statement by statement: where a caller that entered with the flag
set stands after `k` statements of its own, and what it has issued by then.  It tests the flag
(line 21), then issues the warning (line 22), then has left the call (line 23, or by the
exception of the warning). -/
def lateProgress (B : Backend) (b : TStr) : Nat → Pc × List Effect
  | 0 => (Pc.check, [])
  | 1 => (Pc.warn, [])
  | _ + 2 =>
    (if B (Effect.logWarn (duplicateMessage b)) then Pc.raised else Pc.returned,
      [Effect.logWarn (duplicateMessage b)])

/-! ## Helper lemmas: the three paths of `LoggingInitImpl` -/

@[simp] theorem run_pure {α : Type} (a : α) (B : Backend) (st : State) :
    (Pure.pure a : Prog α) B st = ⟨st, [], some a⟩ := rfl

@[simp] theorem run_bind {α β : Type} (m : Prog α) (f : α → Prog β) (B : Backend)
    (st : State) : (m >>= f) B st = Prog.bind m f B st := rfl

/-- The duplicate branch: lines 21 to 23. -/
theorem call_duplicate (debug : Bool) (a : TStr) (B : Backend) :
    LoggingInitImpl debug a B ⟨true⟩ =
      ⟨⟨true⟩, [Effect.logWarn (duplicateMessage a)],
        if B (Effect.logWarn (duplicateMessage a)) then none else some ()⟩ := by
  cases h : B (Effect.logWarn (duplicateMessage a)) <;>
    simp [LoggingInitImpl, Prog.bind, readInitialised, writeInitialised, call, h]

/-- The first call with a path: lines 25, 28 and 29. -/
theorem call_path (debug : Bool) (path : String) (B : Backend) :
    LoggingInitImpl debug (some path) B ⟨false⟩ =
      if B (Effect.propertyConfigure path) then
        ⟨⟨true⟩, [Effect.writeFlag true, Effect.propertyConfigure path], none⟩
      else
        ⟨⟨true⟩, [Effect.writeFlag true, Effect.propertyConfigure path,
            Effect.logInfo (fromPathMessage (some path))],
          if B (Effect.logInfo (fromPathMessage (some path))) then none else some ()⟩ := by
  cases h : B (Effect.propertyConfigure path) <;>
  cases h2 : B (Effect.logInfo (fromPathMessage (some path))) <;>
    simp [LoggingInitImpl, Prog.bind, readInitialised, writeInitialised, call, h, h2]

/-- The first call without a path in a debug build: lines 25, 31 and 36. -/
theorem call_default_debug (B : Backend) :
    LoggingInitImpl true none B ⟨false⟩ =
      if B Effect.basicConfigure then
        ⟨⟨true⟩, [Effect.writeFlag true, Effect.basicConfigure], none⟩
      else
        ⟨⟨true⟩, [Effect.writeFlag true, Effect.basicConfigure, Effect.logInfo defaultMessage],
          if B (Effect.logInfo defaultMessage) then none else some ()⟩ := by
  cases h : B Effect.basicConfigure <;>
  cases h2 : B (Effect.logInfo defaultMessage) <;>
    simp [LoggingInitImpl, Prog.bind, readInitialised, writeInitialised, call, h, h2]

/-- The first call without a path in a non-debug build: lines 25, 31, 33, 34 and 36. -/
theorem call_default_release (B : Backend) :
    LoggingInitImpl false none B ⟨false⟩ =
      if B Effect.basicConfigure then
        ⟨⟨true⟩, [Effect.writeFlag true, Effect.basicConfigure], none⟩
      else if B (Effect.rootSetLevel Level.ERROR) then
        ⟨⟨true⟩, [Effect.writeFlag true, Effect.basicConfigure,
            Effect.rootSetLevel Level.ERROR], none⟩
      else
        ⟨⟨true⟩, [Effect.writeFlag true, Effect.basicConfigure,
            Effect.rootSetLevel Level.ERROR, Effect.logInfo defaultMessage],
          if B (Effect.logInfo defaultMessage) then none else some ()⟩ := by
  cases h : B Effect.basicConfigure <;>
  cases h1 : B (Effect.rootSetLevel Level.ERROR) <;>
  cases h2 : B (Effect.logInfo defaultMessage) <;>
    simp [LoggingInitImpl, Prog.bind, readInitialised, writeInitialised, call, h, h1, h2]

/-- The statement-wise machine and the whole-call function agree: five statements from the
entry of the function end the call, with the state, trace and value of `LoggingInitImpl`. -/
theorem runThread_eq_call (debug : Bool) (a : TStr) (B : Backend) (st : State) :
    let r := runThread debug a B 5 Pc.check st
    (⟨r.2.1, r.2.2, r.1.value⟩ : Run Unit) = LoggingInitImpl debug a B st
      ∧ (r.1 = Pc.returned ∨ r.1 = Pc.raised) := by
  obtain ⟨flag⟩ := st
  cases flag
  · cases a with
    | some path =>
      rw [call_path]
      cases h : B (Effect.propertyConfigure path) <;>
      cases h2 : B (Effect.logInfo (fromPathMessage (some path))) <;>
        simp [runThread, step, after, Pc.value, h, h2]
    | none =>
      cases debug
      · rw [call_default_release]
        cases h : B Effect.basicConfigure <;>
        cases h1 : B (Effect.rootSetLevel Level.ERROR) <;>
        cases h2 : B (Effect.logInfo defaultMessage) <;>
          simp [runThread, step, after, Pc.value, h, h1, h2]
      · rw [call_default_debug]
        cases h : B Effect.basicConfigure <;>
        cases h2 : B (Effect.logInfo defaultMessage) <;>
          simp [runThread, step, after, Pc.value, h, h2]
  · rw [call_duplicate]
    cases h : B (Effect.logWarn (duplicateMessage a)) <;>
      simp [runThread, step, after, Pc.value, h]

/-- Every first call leaves the flag set. -/
theorem call_first_state (debug : Bool) (a : TStr) (B : Backend) :
    (LoggingInitImpl debug a B ⟨false⟩).state = ⟨true⟩ := by
  cases a with
  | some path => rw [call_path]; split <;> rfl
  | none =>
    cases debug
    · rw [call_default_release]; split
      · rfl
      · split <;> rfl
    · rw [call_default_debug]; split <;> rfl

/-- Every first call issues exactly the configure operation that its argument selects. -/
theorem call_first_configures (debug : Bool) (a : TStr) (B : Backend) :
    (LoggingInitImpl debug a B ⟨false⟩).trace.filter Effect.isConfigure = [configureOf a] := by
  cases a with
  | some path => rw [call_path]; split <;> simp [Effect.isConfigure, configureOf]
  | none =>
    cases debug
    · rw [call_default_release]; split
      · simp [Effect.isConfigure, configureOf]
      · split <;> simp [Effect.isConfigure, configureOf]
    · rw [call_default_debug]; split <;> simp [Effect.isConfigure, configureOf]

/-- Calls made once the flag is set: each is a lone warning and the flag stays set. -/
theorem runCalls_duplicates (debug : Bool) (B : Backend) (args : List TStr) :
    runCalls debug B ⟨true⟩ args =
      (⟨true⟩, args.map (fun b => [Effect.logWarn (duplicateMessage b)])) := by
  induction args with
  | nil => rfl
  | cons a rest ih => simp [runCalls, call_duplicate, ih]

/-- A run of lone warnings holds no configure operation. -/
theorem filter_configure_duplicates (args : List TStr) :
    (args.map (fun b => [Effect.logWarn (duplicateMessage b)])).flatten.filter
      Effect.isConfigure = [] := by
  induction args with
  | nil => rfl
  | cons a rest ih => simp [Effect.isConfigure, ih]

/-- The configure operations of a non-empty sequence of calls from process start. -/
theorem runCalls_configures (debug : Bool) (B : Backend) (a : TStr) (rest : List TStr) :
    (runCalls debug B State.initial (a :: rest)).2.flatten.filter Effect.isConfigure =
      [configureOf a] := by
  simp only [runCalls, State.initial, call_first_state, runCalls_duplicates, List.flatten_cons,
    List.filter_append, call_first_configures, filter_configure_duplicates, List.append_nil]

/-! ## Helper lemmas: two callers -/

/-- The effects of one caller, after one more effect list was appended to the trace. -/
theorem effectsOf_append (who issuer : Caller) (t : List (Caller × Effect)) (es : List Effect) :
    effectsOf who (t ++ es.map (fun e => (issuer, e)))
      = effectsOf who t ++ (if issuer = who then es else []) := by
  unfold effectsOf
  rw [List.filter_append, List.map_append]
  congr 1
  by_cases h : issuer = who
  · simp [h, List.filter_map, Function.comp_def]
  · simp [h, List.filter_map, Function.comp_def]

/-- The configure operations of an interleaved trace are those of its two callers. -/
theorem configuresOf_length (t : List (Caller × Effect)) :
    (configuresOf t).length
      = (effectsOf Caller.first t).countP Effect.isConfigure
        + (effectsOf Caller.second t).countP Effect.isConfigure := by
  induction t with
  | nil => rfl
  | cons x rest ih =>
    obtain ⟨who, e⟩ := x
    unfold configuresOf effectsOf at *
    cases who <;> cases h : e.isConfigure <;> simp [h, ih] <;> omega

/-- No statement of `LoggingInitImpl` unsets the flag. -/
theorem step_keeps_flag (debug : Bool) (x : TStr) (B : Backend) (pc : Pc) (st : State)
    (h : st.bInitialised = true) : (step debug x B pc st).2.1.bInitialised = true := by
  cases pc <;> try (simp [step, h]; done)
  cases x <;> simp [step, h]

/-- One step of either caller keeps `SecondLate`. -/
theorem SecondLate_step (debug : Bool) (B : Backend) (a b : TStr) (who : Caller) (c : Config)
    (h : SecondLate b c) : SecondLate b (stepCaller debug B a b who c) := by
  obtain ⟨hflag, hpc⟩ := h
  cases who with
  | first =>
    refine ⟨step_keeps_flag debug a B c.pcFirst c.shared hflag, ?_⟩
    simpa [stepCaller, effectsOf_append] using hpc
  | second =>
    refine ⟨step_keeps_flag debug b B c.pcSecond c.shared hflag, ?_⟩
    rcases hpc with ⟨hp | hp, ht⟩ | ⟨hp | hp, ht⟩
    · left; simp [stepCaller, effectsOf_append, hp, step, hflag, ht]
    · right
      simp only [stepCaller, effectsOf_append, hp, step, ht, after]
      split <;> simp
    · right; simp [stepCaller, effectsOf_append, hp, step, ht]
    · right; simp [stepCaller, effectsOf_append, hp, step, ht]

/-- One step of either caller keeps `FirstPast`. -/
theorem FirstPast_step (debug : Bool) (B : Backend) (a b : TStr) (who : Caller) (c : Config)
    (h : FirstPast a c) : FirstPast a (stepCaller debug B a b who c) := by
  cases who with
  | second => simpa [FirstPast, stepCaller, effectsOf_append] using h
  | first =>
    rcases h with ⟨hp, ht⟩ | ⟨hp | hp | hp | hp | hp, ht⟩
    · right
      cases a with
      | some path =>
        simp only [stepCaller, effectsOf_append, hp, step, after, List.filter_append, ht]
        split <;> simp [Effect.isConfigure, configureOf]
      | none =>
        simp only [stepCaller, effectsOf_append, hp, step, after, List.filter_append, ht]
        cases debug <;> split <;> simp [Effect.isConfigure, configureOf]
    all_goals
      right
      simp only [stepCaller, effectsOf_append, hp, step, after, List.filter_append, ht]
      split <;> simp [Effect.isConfigure]

/-- Both invariants hold along every schedule. -/
theorem late_invariants (debug : Bool) (B : Backend) (a b : TStr) (sched : List Caller) :
    ∀ c : Config, SecondLate b c → FirstPast a c →
      SecondLate b (runSchedule debug B a b sched c)
        ∧ FirstPast a (runSchedule debug B a b sched c) := by
  induction sched with
  | nil => intro c h1 h2; exact ⟨h1, h2⟩
  | cons who rest ih =>
    intro c h1 h2
    exact ih _ (SecondLate_step debug B a b who c h1) (FirstPast_step debug B a b who c h2)

/-- A schedule in two parts runs the first part and then the second. -/
theorem runSchedule_append (debug : Bool) (B : Backend) (a b : TStr) (s1 s2 : List Caller) :
    ∀ c : Config, runSchedule debug B a b (s1 ++ s2) c
      = runSchedule debug B a b s2 (runSchedule debug B a b s1 c) := by
  induction s1 with
  | nil => intro c; rfl
  | cons w r ih => intro c; exact ih _

/-- The first caller alone for `n` steps is `runThread` on its argument. -/
theorem runSchedule_first (debug : Bool) (B : Backend) (a b : TStr) (n : Nat) :
    ∀ c : Config, runSchedule debug B a b (List.replicate n Caller.first) c
      = ⟨(runThread debug a B n c.pcFirst c.shared).2.1,
          (runThread debug a B n c.pcFirst c.shared).1, c.pcSecond,
          c.trace ++ (runThread debug a B n c.pcFirst c.shared).2.2.map
            (fun e => (Caller.first, e))⟩ := by
  induction n with
  | zero => intro c; simp [runSchedule, runThread]
  | succ k ih =>
    intro c
    rw [List.replicate_succ, runSchedule, ih]
    simp [stepCaller, runThread]

/-- The second caller alone for `n` steps is `runThread` on its argument. -/
theorem runSchedule_second (debug : Bool) (B : Backend) (a b : TStr) (n : Nat) :
    ∀ c : Config, runSchedule debug B a b (List.replicate n Caller.second) c
      = ⟨(runThread debug b B n c.pcSecond c.shared).2.1, c.pcFirst,
          (runThread debug b B n c.pcSecond c.shared).1,
          c.trace ++ (runThread debug b B n c.pcSecond c.shared).2.2.map
            (fun e => (Caller.second, e))⟩ := by
  induction n with
  | zero => intro c; simp [runSchedule, runThread]
  | succ k ih =>
    intro c
    rw [List.replicate_succ, runSchedule, ih]
    simp [stepCaller, runThread]

/-- A caller that stands before line 27 issues, within three statements, exactly the configure
operation its argument selects, and does not touch the flag. -/
theorem runThread_from_configure (debug : Bool) (x : TStr) (B : Backend) (st : State) :
    (runThread debug x B 3 Pc.configure st).2.1 = st
    ∧ (runThread debug x B 3 Pc.configure st).2.2.filter Effect.isConfigure
        = [configureOf x] := by
  cases x with
  | some path =>
    cases h : B (Effect.propertyConfigure path) <;>
    cases h2 : B (Effect.logInfo (fromPathMessage (some path))) <;>
      simp [runThread, step, after, h, h2, Effect.isConfigure, configureOf]
  | none =>
    cases debug <;>
    cases h : B Effect.basicConfigure <;>
    cases h1 : B (Effect.rootSetLevel Level.ERROR) <;>
    cases h2 : B (Effect.logInfo defaultMessage) <;>
      simp [runThread, step, after, h, h1, h2, Effect.isConfigure, configureOf]

/-- The configure operations of a trace extended by the effects of one caller. -/
theorem configuresOf_append (who : Caller) (t : List (Caller × Effect)) (es : List Effect) :
    configuresOf (t ++ es.map (fun e => (who, e)))
      = configuresOf t ++ (es.filter Effect.isConfigure).map (fun e => (who, e)) := by
  unfold configuresOf
  rw [List.filter_append, List.filter_map]
  rfl

/-- One statement of the second caller, the flag being set, is one statement of the
duplicate branch; a statement of the first caller leaves the second where it is. -/
theorem lateProgress_step (debug : Bool) (B : Backend) (a b : TStr) (who : Caller)
    (c : Config) (n : Nat) (hflag : c.shared.bInitialised = true)
    (h : (c.pcSecond, effectsOf Caller.second c.trace) = lateProgress B b n) :
    ((stepCaller debug B a b who c).pcSecond,
        effectsOf Caller.second (stepCaller debug B a b who c).trace)
      = lateProgress B b (n + [who].count Caller.second) := by
  have hpc : c.pcSecond = (lateProgress B b n).1 := by rw [← h]
  have htr : effectsOf Caller.second c.trace = (lateProgress B b n).2 := by rw [← h]
  cases who with
  | first =>
    have h0 : [Caller.first].count Caller.second = 0 := by decide
    rw [h0, Nat.add_zero, ← h]
    simp [stepCaller, effectsOf_append]
  | second =>
    have h1 : [Caller.second].count Caller.second = 1 := by decide
    rw [h1]
    match n, hpc, htr with
    | 0, hpc, htr =>
      simp only [lateProgress] at hpc htr
      simp [stepCaller, effectsOf_append, hpc, htr, step, hflag, lateProgress]
    | 1, hpc, htr =>
      simp only [lateProgress] at hpc htr
      simp only [stepCaller, effectsOf_append, hpc, htr, step, after, lateProgress]
      split <;> simp
    | k + 2, hpc, htr =>
      simp only [lateProgress] at hpc htr
      cases hB : B (Effect.logWarn (duplicateMessage b)) <;>
        simp [hB] at hpc <;>
        simp [stepCaller, effectsOf_append, hpc, htr, step, lateProgress, hB]

/-- Along every schedule run with the flag set, the second caller advances through the
duplicate branch by one statement per step it takes. -/
theorem lateProgress_run (debug : Bool) (B : Backend) (a b : TStr) (sched : List Caller) :
    ∀ (c : Config) (n : Nat), c.shared.bInitialised = true →
      (c.pcSecond, effectsOf Caller.second c.trace) = lateProgress B b n →
      ((runSchedule debug B a b sched c).pcSecond,
          effectsOf Caller.second (runSchedule debug B a b sched c).trace)
        = lateProgress B b (n + sched.count Caller.second) := by
  induction sched with
  | nil => intro c n _ h; simpa [runSchedule] using h
  | cons who rest ih =>
    intro c n hflag h
    have hstep := lateProgress_step debug B a b who c n hflag h
    have hflag2 : (stepCaller debug B a b who c).shared.bInitialised = true := by
      cases who
      · exact step_keeps_flag debug a B c.pcFirst c.shared hflag
      · exact step_keeps_flag debug b B c.pcSecond c.shared hflag
    have := ih (stepCaller debug B a b who c) _ hflag2 hstep
    rw [runSchedule, this]
    congr 1
    have hc : (who :: rest).count Caller.second
        = [who].count Caller.second + rest.count Caller.second := by
      rw [← List.count_append]; rfl
    omega

/-- A caller that enters with the flag set has, within two statements, issued the warning
and left the call. -/
theorem runThread_duplicate (debug : Bool) (x : TStr) (B : Backend) :
    runThread debug x B 2 Pc.check ⟨true⟩
      = (if B (Effect.logWarn (duplicateMessage x)) then Pc.raised else Pc.returned, ⟨true⟩,
          [Effect.logWarn (duplicateMessage x)]) := by
  cases h : B (Effect.logWarn (duplicateMessage x)) <;> simp [runThread, step, after, h]

/-- A caller that stands before line 27 issues, within three statements, what the whole call
issues after the write of the flag, and ends as the whole call ends. -/
theorem runThread_configure_trace (debug : Bool) (x : TStr) (B : Backend) (st : State) :
    (runThread debug x B 3 Pc.configure st).2.2
        = (LoggingInitImpl debug x B ⟨false⟩).trace.tail
    ∧ (runThread debug x B 3 Pc.configure st).1.value
        = (LoggingInitImpl debug x B ⟨false⟩).value := by
  cases x with
  | some path =>
    rw [call_path]
    cases h : B (Effect.propertyConfigure path) <;>
    cases h2 : B (Effect.logInfo (fromPathMessage (some path))) <;>
      simp [runThread, step, after, Pc.value, h, h2]
  | none =>
    cases debug
    · rw [call_default_release]
      cases h : B Effect.basicConfigure <;>
      cases h1 : B (Effect.rootSetLevel Level.ERROR) <;>
      cases h2 : B (Effect.logInfo defaultMessage) <;>
        simp [runThread, step, after, Pc.value, h, h1, h2]
    · rw [call_default_debug]
      cases h : B Effect.basicConfigure <;>
      cases h2 : B (Effect.logInfo defaultMessage) <;>
        simp [runThread, step, after, Pc.value, h, h2]

/-! ## The claims -/

/-- C1: over every finite sequence of calls of `LoggingInitImpl` from process start, whatever
the arguments, the build mode and the backend, the traces hold at most one configure operation.
The empty sequence issues none.  A non-empty sequence issues exactly one: it is in the trace of
the first call, it is `configureOf a` for the first argument `a` alone, and every later call
leaves a trace that consists of one warning diagnostic. -/
theorem at_most_one_configure (debug : Bool) (B : Backend) (args : List TStr) (a : TStr)
    (rest : List TStr) :
    (runCalls debug B State.initial args).2.flatten.countP Effect.isConfigure ≤ 1
    ∧ (runCalls debug B State.initial []).2 = []
    ∧ (runCalls debug B State.initial (a :: rest)).2.flatten.countP Effect.isConfigure = 1
    ∧ (runCalls debug B State.initial (a :: rest)).2.flatten.filter Effect.isConfigure
        = [configureOf a]
    ∧ (runCalls debug B State.initial (a :: rest)).2.head?
        = some (LoggingInitImpl debug a B State.initial).trace
    ∧ (LoggingInitImpl debug a B State.initial).trace.filter Effect.isConfigure
        = [configureOf a]
    ∧ (runCalls debug B State.initial (a :: rest)).2.tail
        = rest.map (fun b => [Effect.logWarn (duplicateMessage b)])
    ∧ (runCalls debug B State.initial (a :: rest)).2.tail.flatten.countP Effect.isConfigure
        = 0 := by
  have hone : ∀ (x : TStr) (xs : List TStr),
      (runCalls debug B State.initial (x :: xs)).2.flatten.countP Effect.isConfigure = 1 := by
    intro x xs
    rw [List.countP_eq_length_filter, runCalls_configures]
    rfl
  have htail : (runCalls debug B State.initial (a :: rest)).2.tail
      = rest.map (fun b => [Effect.logWarn (duplicateMessage b)]) := by
    simp [runCalls, State.initial, call_first_state, runCalls_duplicates]
  refine ⟨?_, rfl, hone a rest, runCalls_configures debug B a rest, rfl,
    call_first_configures debug a B, htail, ?_⟩
  · cases args with
    | nil => simp [runCalls]
    | cons x xs => rw [hone x xs]
  · rw [htail, List.countP_eq_length_filter, filter_configure_duplicates]
    rfl

/-- C2: for every path `P`, `LoggingInitImpl (P)` in the uninitialised state, against a backend
whose operations return, sets the flag, issues `PropertyConfigurator::configure (P)` once and no
`BasicConfigurator::configure`, then issues one info diagnostic whose text is
"Logging initialised from " followed by `P`, issues no warning, and returns with the flag
set. -/
theorem first_call_with_path (debug : Bool) (P : String) (nullText : String) :
    LoggingInitImpl debug (some P) Backend.returning ⟨false⟩
      = ⟨⟨true⟩, [Effect.writeFlag true, Effect.propertyConfigure P,
            Effect.logInfo (fromPathMessage (some P))], some ()⟩
    ∧ (LoggingInitImpl debug (some P) Backend.returning ⟨false⟩).trace.filter
        Effect.isConfigure = [Effect.propertyConfigure P]
    ∧ (LoggingInitImpl debug (some P) Backend.returning ⟨false⟩).trace.countP
        Effect.isPropertyConfigure = 1
    ∧ (LoggingInitImpl debug (some P) Backend.returning ⟨false⟩).trace.countP
        Effect.isBasicConfigure = 0
    ∧ (LoggingInitImpl debug (some P) Backend.returning ⟨false⟩).trace.filter Effect.isInfo
        = [Effect.logInfo (fromPathMessage (some P))]
    ∧ (LoggingInitImpl debug (some P) Backend.returning ⟨false⟩).trace.countP Effect.isWarn = 0
    ∧ renderMessage nullText (fromPathMessage (some P)) = "Logging initialised from " ++ P
    ∧ (LoggingInitImpl debug (some P) Backend.returning ⟨false⟩).state.bInitialised = true := by
  have h : LoggingInitImpl debug (some P) Backend.returning ⟨false⟩
      = ⟨⟨true⟩, [Effect.writeFlag true, Effect.propertyConfigure P,
            Effect.logInfo (fromPathMessage (some P))], some ()⟩ := by
    rw [call_path]; simp [Backend.returning]
  rw [h]
  simp [Effect.isConfigure, Effect.isPropertyConfigure, Effect.isBasicConfigure, Effect.isInfo,
    Effect.isWarn, renderMessage, fromPathMessage, Operand.render]

/-- C3: `LoggingInitImpl (NULL)` in the uninitialised state, against a backend whose
operations return, sets the flag, issues `BasicConfigurator::configure` once and no
`PropertyConfigurator::configure`, and ends with one info diagnostic, "Logging initialised
with default settings".  With the build mode as the parameter `debug`, the root logger's level
is set to `ERROR` between the two exactly when the build is not a debug build; a debug build
issues no change of the root level at all. -/
theorem first_call_default (debug : Bool) (nullText : String) :
    LoggingInitImpl debug none Backend.returning ⟨false⟩
      = ⟨⟨true⟩, [Effect.writeFlag true, Effect.basicConfigure]
            ++ (if debug then [] else [Effect.rootSetLevel Level.ERROR])
            ++ [Effect.logInfo defaultMessage], some ()⟩
    ∧ (LoggingInitImpl debug none Backend.returning ⟨false⟩).trace.countP
        Effect.isBasicConfigure = 1
    ∧ (LoggingInitImpl debug none Backend.returning ⟨false⟩).trace.countP
        Effect.isPropertyConfigure = 0
    ∧ (LoggingInitImpl debug none Backend.returning ⟨false⟩).trace.filter Effect.isInfo
        = [Effect.logInfo defaultMessage]
    ∧ renderMessage nullText defaultMessage = "Logging initialised with default settings"
    ∧ (Effect.rootSetLevel Level.ERROR ∈ (LoggingInitImpl debug none Backend.returning
        ⟨false⟩).trace ↔ debug = false)
    ∧ (LoggingInitImpl debug none Backend.returning ⟨false⟩).trace.filter Effect.isRootSetLevel
        = (if debug then [] else [Effect.rootSetLevel Level.ERROR])
    ∧ (LoggingInitImpl true none Backend.returning ⟨false⟩).trace.countP
        Effect.isRootSetLevel = 0 := by
  have ht : LoggingInitImpl true none Backend.returning ⟨false⟩
      = ⟨⟨true⟩, [Effect.writeFlag true, Effect.basicConfigure,
            Effect.logInfo defaultMessage], some ()⟩ := by
    rw [call_default_debug]; simp [Backend.returning]
  have hf : LoggingInitImpl false none Backend.returning ⟨false⟩
      = ⟨⟨true⟩, [Effect.writeFlag true, Effect.basicConfigure,
            Effect.rootSetLevel Level.ERROR, Effect.logInfo defaultMessage], some ()⟩ := by
    rw [call_default_release]; simp [Backend.returning]
  cases debug
  · rw [ht, hf]
    simp [Effect.isPropertyConfigure, Effect.isBasicConfigure, Effect.isInfo,
      Effect.isRootSetLevel, renderMessage, defaultMessage, Operand.render]
  · rw [ht]
    simp [Effect.isPropertyConfigure, Effect.isBasicConfigure, Effect.isInfo,
      Effect.isRootSetLevel, renderMessage, defaultMessage, Operand.render]

/-- C4: from every state, against every backend and for every optional settings object,
`LoggingInit` leaves the state, the trace and the value of `LoggingInitImpl` called with the
path that the spec names: the accessor's result for a settings object, the absent path for
NULL.  A settings object whose accessor returns the absent path behaves as `LoggingInitImpl`
with an absent path, and one whose accessor returns `P` as `LoggingInitImpl` with `P`. -/
theorem loggingInit_adapts (debug : Bool) (B : Backend) (st : State)
    (poSettings : Option CAbstractSettings) (P : String) :
    LoggingInit debug poSettings B st
      = LoggingInitImpl debug (specAdaptedPath poSettings) B st
    ∧ LoggingInit debug none B st = LoggingInitImpl debug none B st
    ∧ LoggingInit debug (some ⟨none⟩) B st = LoggingInitImpl debug none B st
    ∧ LoggingInit debug (some ⟨some P⟩) B st = LoggingInitImpl debug (some P) B st := by
  refine ⟨?_, rfl, rfl, rfl⟩
  cases poSettings <;> rfl

/-- C5: a call of `LoggingInitImpl` with the flag already set, for every argument, build mode
and backend, leaves the state as it was, flag set, and its only effect is the warning
diagnostic: no configure operation, no change of the root level, no write of the flag.  Over
any further sequence of calls the flag stays set. -/
theorem duplicate_call_frame (debug : Bool) (B : Backend) (a : TStr) (later : List TStr) :
    (LoggingInitImpl debug a B ⟨true⟩).state = ⟨true⟩
    ∧ (LoggingInitImpl debug a B ⟨true⟩).trace = [Effect.logWarn (duplicateMessage a)]
    ∧ (LoggingInitImpl debug a B ⟨true⟩).trace.countP Effect.isConfigure = 0
    ∧ (LoggingInitImpl debug a B ⟨true⟩).trace.countP Effect.isRootSetLevel = 0
    ∧ (LoggingInitImpl debug a B ⟨true⟩).trace.countP Effect.isWriteFlag = 0
    ∧ (runCalls debug B ⟨true⟩ later).1 = ⟨true⟩
    ∧ (runCalls debug B (LoggingInitImpl debug a B State.initial).state later).1.bInitialised
        = true := by
  have h2 : (LoggingInitImpl debug a B State.initial).state = ⟨true⟩ :=
    call_first_state debug a B
  rw [call_duplicate, h2, runCalls_duplicates]
  simp [Effect.isConfigure, Effect.isRootSetLevel, Effect.isWriteFlag]

/-- C10: a first call `LoggingInitImpl (P)` with a path issues no change of the root logger's
level, in both build modes and against every backend.  Over all calls, the change of the root
level is issued exactly on the absent-path branch of a first call in a non-debug build whose
`BasicConfigurator::configure` returned, and it is the only one. -/
theorem path_keeps_root_level (debug : Bool) (B : Backend) (P : String) (a : TStr)
    (st : State) :
    (LoggingInitImpl debug (some P) B ⟨false⟩).trace.countP Effect.isRootSetLevel = 0
    ∧ (LoggingInitImpl debug (some P) B st).trace.filter Effect.isRootSetLevel = []
    ∧ (LoggingInitImpl debug a B st).trace.filter Effect.isRootSetLevel
        = (if a.isNone && !debug && !st.bInitialised && !B Effect.basicConfigure
            then [Effect.rootSetLevel Level.ERROR] else []) := by
  have hgen : ∀ (x : TStr) (s : State),
      (LoggingInitImpl debug x B s).trace.filter Effect.isRootSetLevel
      = (if x.isNone && !debug && !s.bInitialised && !B Effect.basicConfigure
          then [Effect.rootSetLevel Level.ERROR] else []) := by
    intro x s
    obtain ⟨flag⟩ := s
    cases flag
    · cases x with
      | some path =>
        rw [call_path]; split <;> simp [Effect.isRootSetLevel]
      | none =>
        cases debug
        · rw [call_default_release]
          cases h : B Effect.basicConfigure <;>
          cases h1 : B (Effect.rootSetLevel Level.ERROR) <;>
            simp [Effect.isRootSetLevel]
        · rw [call_default_debug]; split <;> simp [Effect.isRootSetLevel]
    · rw [call_duplicate]; simp [Effect.isRootSetLevel]
  refine ⟨?_, ?_, hgen a st⟩
  · rw [List.countP_eq_length_filter, hgen]; simp
  · rw [hgen]; simp

/-- C7: with `LoggingInitImpl` executed one statement at a time by two callers, there is an
interleaving from process start, for all arguments, both build modes and every backend, in
which both callers have tested the flag and found it unset before either has written it (after
the first two steps the flag is unset, nothing has been issued, and both callers stand before
line 25), and in which both then issue their configure operation: the backend is configured
twice. -/
theorem race_configures_twice (debug : Bool) (B : Backend) (a b : TStr) :
    ∃ sched : List Caller,
      (runSchedule debug B a b (sched.take 2) Config.start)
          = ⟨⟨false⟩, Pc.setFlag, Pc.setFlag, []⟩
      ∧ configuresOf (runSchedule debug B a b sched Config.start).trace
          = [(Caller.first, configureOf a), (Caller.second, configureOf b)]
      ∧ (configuresOf (runSchedule debug B a b sched Config.start).trace).length = 2
      ∧ 1 < (runSchedule debug B a b sched Config.start).trace.countP
          (fun x => x.2.isConfigure) := by
  have hfour : runSchedule debug B a b
        [Caller.first, Caller.second, Caller.first, Caller.second] Config.start
      = ⟨⟨true⟩, Pc.configure, Pc.configure,
          [(Caller.first, Effect.writeFlag true), (Caller.second, Effect.writeFlag true)]⟩ := by
    simp [runSchedule, stepCaller, step, Config.start, State.initial]
  have hsplit : raceSchedule = [Caller.first, Caller.second, Caller.first, Caller.second]
      ++ (List.replicate 3 Caller.first ++ List.replicate 3 Caller.second) := rfl
  have hc : configuresOf (runSchedule debug B a b raceSchedule Config.start).trace
      = [(Caller.first, configureOf a), (Caller.second, configureOf b)] := by
    rw [hsplit, runSchedule_append, runSchedule_append, hfour, runSchedule_first,
      runSchedule_second]
    simp only [configuresOf_append, (runThread_from_configure debug a B ⟨true⟩).1,
      (runThread_from_configure debug a B ⟨true⟩).2,
      (runThread_from_configure debug b B ⟨true⟩).2]
    simp [configuresOf, Effect.isConfigure]
  refine ⟨raceSchedule, ?_, hc, ?_, ?_⟩
  · simp [raceSchedule, runSchedule, stepCaller, step, Config.start, State.initial]
  · rw [hc]; rfl
  · rw [List.countP_eq_length_filter]
    show 1 < (configuresOf (runSchedule debug B a b raceSchedule Config.start).trace).length
    rw [hc]; simp

/-- C8: on a call of `LoggingInitImpl` in the uninitialised state, for every argument, build
mode and backend, the write of the flag is the first effect of the call and every backend
operation of the call comes after it.  So a call that arrives after that write takes the
duplicate branch.  Along every interleaving in which the second caller enters only after the
first has tested and written the flag (the schedule starts with two steps of the first caller),
the second caller is, after `k` steps of its own, exactly where the duplicate branch puts it:
before the test of the flag, then before the warning, then out of the call with the warning as
its only effect; it issues no configure operation and the whole trace holds at most one.  The
whole call from the state that the write leaves is the duplicate run, and when the second
call runs entirely between the first caller's write and its configure operation, each caller
issues what its whole call issues and the only configure operation is the first caller's. -/
theorem flag_written_before_backend (debug : Bool) (B : Backend) (a b : TStr)
    (sched : List Caller) :
    (LoggingInitImpl debug a B ⟨false⟩).trace.head? = some (Effect.writeFlag true)
    ∧ (LoggingInitImpl debug a B ⟨false⟩).trace.tail.all Effect.isBackendOp = true
    ∧ (LoggingInitImpl debug a B ⟨false⟩).trace.tail.filter Effect.isConfigure
        = [configureOf a]
    ∧ runSchedule debug B a b [Caller.first, Caller.first] Config.start
        = ⟨⟨true⟩, Pc.configure, Pc.check, [(Caller.first, Effect.writeFlag true)]⟩
    ∧ (effectsOf Caller.second
          (runSchedule debug B a b (Caller.first :: Caller.first :: sched) Config.start).trace
        = []
      ∨ effectsOf Caller.second
          (runSchedule debug B a b (Caller.first :: Caller.first :: sched) Config.start).trace
        = [Effect.logWarn (duplicateMessage b)])
    ∧ (effectsOf Caller.second
          (runSchedule debug B a b (Caller.first :: Caller.first :: sched)
            Config.start).trace).countP Effect.isConfigure = 0
    ∧ (configuresOf
          (runSchedule debug B a b (Caller.first :: Caller.first :: sched)
            Config.start).trace).length ≤ 1
    ∧ ((runSchedule debug B a b (Caller.first :: Caller.first :: sched) Config.start).pcSecond,
        effectsOf Caller.second
          (runSchedule debug B a b (Caller.first :: Caller.first :: sched) Config.start).trace)
        = lateProgress B b (sched.count Caller.second)
    ∧ LoggingInitImpl debug b B
          (runSchedule debug B a b [Caller.first, Caller.first] Config.start).shared
        = ⟨⟨true⟩, [Effect.logWarn (duplicateMessage b)],
            if B (Effect.logWarn (duplicateMessage b)) then none else some ()⟩
    ∧ (runSchedule debug B a b nestedSchedule Config.start).pcSecond
        = (if B (Effect.logWarn (duplicateMessage b)) then Pc.raised else Pc.returned)
    ∧ effectsOf Caller.second (runSchedule debug B a b nestedSchedule Config.start).trace
        = (LoggingInitImpl debug b B ⟨true⟩).trace
    ∧ effectsOf Caller.first (runSchedule debug B a b nestedSchedule Config.start).trace
        = (LoggingInitImpl debug a B ⟨false⟩).trace
    ∧ (runSchedule debug B a b nestedSchedule Config.start).pcFirst.value
        = (LoggingInitImpl debug a B ⟨false⟩).value
    ∧ configuresOf (runSchedule debug B a b nestedSchedule Config.start).trace
        = [(Caller.first, configureOf a)] := by
  have htwo : runSchedule debug B a b [Caller.first, Caller.first] Config.start
      = ⟨⟨true⟩, Pc.configure, Pc.check, [(Caller.first, Effect.writeFlag true)]⟩ := by
    simp [runSchedule, stepCaller, step, Config.start, State.initial]
  have hrun : runSchedule debug B a b (Caller.first :: Caller.first :: sched) Config.start
      = runSchedule debug B a b sched
          ⟨⟨true⟩, Pc.configure, Pc.check, [(Caller.first, Effect.writeFlag true)]⟩ := by
    rw [← htwo]; rfl
  have hinv := late_invariants debug B a b sched
    ⟨⟨true⟩, Pc.configure, Pc.check, [(Caller.first, Effect.writeFlag true)]⟩
    ⟨rfl, Or.inl ⟨Or.inl rfl, rfl⟩⟩ (Or.inl ⟨rfl, rfl⟩)
  rw [← hrun] at hinv
  obtain ⟨⟨_, hsecond⟩, hfirst⟩ := hinv
  have hsec0 : (effectsOf Caller.second
      (runSchedule debug B a b (Caller.first :: Caller.first :: sched)
        Config.start).trace).countP Effect.isConfigure = 0 := by
    rcases hsecond with ⟨_, ht⟩ | ⟨_, ht⟩ <;> rw [ht] <;> simp [Effect.isConfigure]
  have hfirst1 : (effectsOf Caller.first
      (runSchedule debug B a b (Caller.first :: Caller.first :: sched)
        Config.start).trace).countP Effect.isConfigure ≤ 1 := by
    rw [List.countP_eq_length_filter]
    rcases hfirst with ⟨_, ht⟩ | ⟨_, ht⟩ <;> rw [ht] <;> simp
  have hhead : (LoggingInitImpl debug a B ⟨false⟩).trace.head? = some (Effect.writeFlag true)
      ∧ (LoggingInitImpl debug a B ⟨false⟩).trace.tail.all Effect.isBackendOp = true
      ∧ (LoggingInitImpl debug a B ⟨false⟩).trace.tail.filter Effect.isConfigure
          = [configureOf a] := by
    cases a with
    | some path =>
      rw [call_path]
      split <;> simp [Effect.isBackendOp, Effect.isWriteFlag, Effect.isConfigure, configureOf]
    | none =>
      cases debug
      · rw [call_default_release]
        split
        · simp [Effect.isBackendOp, Effect.isWriteFlag, Effect.isConfigure, configureOf]
        · split <;>
            simp [Effect.isBackendOp, Effect.isWriteFlag, Effect.isConfigure, configureOf]
      · rw [call_default_debug]
        split <;> simp [Effect.isBackendOp, Effect.isWriteFlag, Effect.isConfigure, configureOf]
  have hlate := lateProgress_run debug B a b sched
    ⟨⟨true⟩, Pc.configure, Pc.check, [(Caller.first, Effect.writeFlag true)]⟩ 0 rfl rfl
  rw [← hrun, Nat.zero_add] at hlate
  have hnested : runSchedule debug B a b nestedSchedule Config.start
      = ⟨⟨true⟩, (runThread debug a B 3 Pc.configure ⟨true⟩).1,
          if B (Effect.logWarn (duplicateMessage b)) then Pc.raised else Pc.returned,
          [(Caller.first, Effect.writeFlag true)]
            ++ [(Caller.second, Effect.logWarn (duplicateMessage b))]
            ++ (runThread debug a B 3 Pc.configure ⟨true⟩).2.2.map
                (fun e => (Caller.first, e))⟩ := by
    unfold nestedSchedule
    rw [runSchedule_append, runSchedule_append, htwo, runSchedule_second, runSchedule_first]
    simp only [runThread_duplicate, (runThread_from_configure debug a B ⟨true⟩).1,
      List.map_cons, List.map_nil]
  have hwhole : (LoggingInitImpl debug a B ⟨false⟩).trace
      = Effect.writeFlag true :: (LoggingInitImpl debug a B ⟨false⟩).trace.tail := by
    have h1 := hhead.1
    cases ht : (LoggingInitImpl debug a B ⟨false⟩).trace with
    | nil => rw [ht] at h1; simp at h1
    | cons e es => rw [ht] at h1; simp at h1; simp [h1]
  refine ⟨hhead.1, hhead.2.1, hhead.2.2, htwo, ?_, hsec0, ?_, hlate, ?_, ?_, ?_, ?_, ?_, ?_⟩
  · rcases hsecond with ⟨_, ht⟩ | ⟨_, ht⟩
    · exact Or.inl ht
    · exact Or.inr ht
  · rw [configuresOf_length]; omega
  · rw [htwo]; exact call_duplicate debug b B
  · rw [hnested]
  · rw [hnested, call_duplicate]
    simp [effectsOf_append, effectsOf]
  · rw [hnested, hwhole, ← (runThread_configure_trace debug a B ⟨true⟩).1]
    simp only [effectsOf_append, if_true]
    simp [effectsOf]
  · rw [hnested]; exact (runThread_configure_trace debug a B ⟨true⟩).2
  · rw [hnested]
    simp only [configuresOf_append, (runThread_from_configure debug a B ⟨true⟩).2]
    simp [configuresOf, Effect.isConfigure]

/-- C9: when the configure operation of the first call of `LoggingInitImpl` raises, the
exception leaves `LoggingInitImpl` (the call has no value), the call has issued the write of the
flag and the configure operation and nothing else, so no info diagnostic, and the flag is set.
Every later call, with any argument, is then a lone duplicate-call warning: the later calls
issue no configure operation and the flag stays set. -/
theorem failed_configure_not_retried (debug : Bool) (B : Backend) (a : TStr)
    (later : List TStr) (hfail : B (configureOf a) = true) :
    (LoggingInitImpl debug a B State.initial).value = none
    ∧ (LoggingInitImpl debug a B State.initial).trace
        = [Effect.writeFlag true, configureOf a]
    ∧ (LoggingInitImpl debug a B State.initial).trace.countP Effect.isInfo = 0
    ∧ (LoggingInitImpl debug a B State.initial).state = ⟨true⟩
    ∧ runCalls debug B (LoggingInitImpl debug a B State.initial).state later
        = (⟨true⟩, later.map (fun b => [Effect.logWarn (duplicateMessage b)]))
    ∧ (runCalls debug B (LoggingInitImpl debug a B State.initial).state
        later).2.flatten.countP Effect.isConfigure = 0
    ∧ (runCalls debug B State.initial (a :: later)).2.flatten.filter Effect.isConfigure
        = [configureOf a] := by
  have hrun : LoggingInitImpl debug a B State.initial
      = ⟨⟨true⟩, [Effect.writeFlag true, configureOf a], none⟩ := by
    cases a with
    | some path =>
      have h : B (Effect.propertyConfigure path) = true := hfail
      simp [State.initial, call_path, h, configureOf]
    | none =>
      have h : B Effect.basicConfigure = true := hfail
      cases debug
      · simp [State.initial, call_default_release, h, configureOf]
      · simp [State.initial, call_default_debug, h, configureOf]
  have hconf := runCalls_configures debug B a later
  rw [hrun] at *
  refine ⟨rfl, rfl, ?_, rfl, runCalls_duplicates debug B later, ?_, hconf⟩
  · cases a <;> simp [Effect.isInfo, configureOf]
  · rw [runCalls_duplicates, List.countP_eq_length_filter, filter_configure_duplicates]
    rfl

/-- C9, at a concrete input: a non-debug build, a backend whose configure operations raise, a
first call without a path and two later calls. -/
theorem failed_configure_not_retried_witness :
    (fun e : Effect => e.isConfigure) (configureOf none) = true
    ∧ (LoggingInitImpl false none (fun e => e.isConfigure) State.initial).value = none
    ∧ (LoggingInitImpl false none (fun e => e.isConfigure) State.initial).trace
        = [Effect.writeFlag true, Effect.basicConfigure]
    ∧ runCalls false (fun e => e.isConfigure)
          (LoggingInitImpl false none (fun e => e.isConfigure) State.initial).state
          [none, some "log4cxx.properties"]
        = (⟨true⟩, [[Effect.logWarn (duplicateMessage none)],
            [Effect.logWarn (duplicateMessage (some "log4cxx.properties"))]]) :=
  have h := failed_configure_not_retried false (fun e => e.isConfigure) none
    [none, some "log4cxx.properties"] rfl
  ⟨rfl, h.1, h.2.1, h.2.2.2.2.1⟩

end Logging
